import Mathlib

/-!
Verification development for the SDMNH render-automation pipeline.

The definitions below are a shallow embedding of the selection,
compilation, acquisition-caching, ledger and title-formatting logic of
`combine.py` and `src/youtube_upload.py`:

* catalogue items (`Video`) carry the DB columns the core reads:
  an internal id, an optional recorded duration (the `duration` column,
  nullable), and the list of `Compilation.created_at` timestamps of the
  compilations that used the item (the `compilation_videos` join rows);
* Python truthiness on the nullable duration column is modelled
  explicitly (`effectiveDuration`);
* the two selectors (`select_videos_within_duration`, `select_videos`)
  are parametrised by the shuffle outcomes, so theorems quantify over
  every possible result of `random.shuffle`;
* the tiered FFmpeg fallback of `compile_videos` is modelled as a
  function of the three per-tier transcoder outcomes;
* the download cache of `download_video` works on filenames as
  character lists, with substring containment for the id-in-filename
  check;
* the `run_auto` ledger commit is modelled over an explicit
  transactional session (durable vs pending state).
-/

/-- A catalogue row of the `videos` table, restricted to the columns the
selection core reads.  `usages` holds the `created_at` timestamps of the
compilations this video appears in (via the `compilation_videos` join). -/
structure Video where
  id : Nat
  duration : Option Int
  usages : List Int
deriving DecidableEq, Repr

/-- Fallback duration (seconds) assumed when the DB duration is NULL or
non-positive: `DEFAULT_DURATION = 3600` in `combine.py`. -/
def DEFAULT_DURATION : Int := 3600

/-- Embeds `video.duration if (video.duration and video.duration > 0) else
DEFAULT_DURATION`: the first conjunct is Python truthiness (`None` and `0`
are falsy), the second the strict positivity test. -/
def effectiveDuration (d : Option Int) : Int :=
  match d with
  | none => DEFAULT_DURATION
  | some v => if v ≠ 0 ∧ v > 0 then v else DEFAULT_DURATION

/-- The spec's wording: the item's recorded duration if known and
positive; otherwise a fixed default of 3600 seconds. -/
def specEffectiveDuration (d : Option Int) : Int :=
  match d with
  | some v => if 0 < v then v else 3600
  | none => 3600

/-- Embeds the cooldown query: there is a usage join row whose
compilation `created_at >= cooldown_date`. -/
def recentUse (usages : List Int) (cooldownDate : Int) : Bool :=
  usages.any (fun t => cooldownDate ≤ t)

/-- The `available` bucket: catalogue items with no recent use
(order of `all_videos` preserved). -/
def freshVideos (allVideos : List Video) (cooldownDate : Int) : List Video :=
  allVideos.filter (fun v => !recentUse v.usages cooldownDate)

/-- The `cooldown_overflow` bucket: items with a recent use
(order of `all_videos` preserved). -/
def cooldownVideos (allVideos : List Video) (cooldownDate : Int) : List Video :=
  allVideos.filter (fun v => recentUse v.usages cooldownDate)

/-- The greedy admission loop of `select_videos_within_duration`:
scan candidates in order, keep a running total, admit a candidate iff
`total + effective_duration ≤ max_duration_seconds`. -/
def selectGreedy (candidates : List Video) (maxDurationSeconds : Int) (total : Int) : List Video :=
  match candidates with
  | [] => []
  | v :: rest =>
    if total + effectiveDuration v.duration ≤ maxDurationSeconds then
      v :: selectGreedy rest maxDurationSeconds (total + effectiveDuration v.duration)
    else
      selectGreedy rest maxDurationSeconds total

/-- Embeds `select_videos_within_duration`.  The two `random.shuffle`
calls are modelled by the function parameters `shuffleFresh` and
`shuffleCooling` applied to the respective bucket, so every statement
quantifying over them covers every shuffle outcome. -/
def select_videos_within_duration (allVideos : List Video) (maxDurationSeconds : Int)
    (cooldownDate : Int) (shuffleFresh shuffleCooling : List Video → List Video) :
    List Video :=
  if allVideos.isEmpty then []
  else
    selectGreedy
      (shuffleFresh (freshVideos allVideos cooldownDate) ++
        shuffleCooling (cooldownVideos allVideos cooldownDate))
      maxDurationSeconds 0

/-- Sum of effective durations of a selection (the running total the
greedy loop maintains). -/
def sumEff (l : List Video) : Int :=
  (l.map (fun v => effectiveDuration v.duration)).sum

/-- Embeds `select_videos` (interactive top-N mode): fresh bucket first,
padded with cooldown items taken in catalogue order when fewer than
`count` fresh items exist, truncated to `count`. -/
def select_videos (allVideos : List Video) (count : Nat) (cooldownDate : Int) : List Video :=
  if allVideos.isEmpty then []
  else
    let available := freshVideos allVideos cooldownDate
    let padded :=
      if available.length < count then
        available ++ (cooldownVideos allVideos cooldownDate).take (count - available.length)
      else available
    padded.take count

/-- Outcome of one FFmpeg tier invocation, as `compile_videos` inspects
it: the process return code, whether the output file exists, and its
size in bytes. -/
structure TierResult where
  returncode : Int
  outputExists : Bool
  outputSize : Nat
deriving DecidableEq, Repr

/-- The per-tier success check of `compile_videos`:
`result.returncode == 0 and output_filepath.exists() and
output_filepath.stat().st_size > 1_000_000`. -/
def tierSuccess (r : TierResult) : Bool :=
  r.returncode == 0 && r.outputExists && decide (1000000 < r.outputSize)

/-- Embeds the control flow of `compile_videos`: the first component is
the list of tiers attempted (in order), the second the tier whose output
is returned (`none` models returning `None`).  `hasInputs` is the
`if not video_files` guard; in interactive mode (`autoMode = false`)
tier 3 runs only when `confirmTier3` (the `y` answer) holds. -/
def compile_videos (hasInputs autoMode confirmTier3 : Bool)
    (t1 t2 t3 : TierResult) : List Nat × Option Nat :=
  if !hasInputs then ([], none)
  else if tierSuccess t1 then ([1], some 1)
  else if tierSuccess t2 then ([1, 2], some 2)
  else if !autoMode && !confirmTier3 then ([1, 2], none)
  else if tierSuccess t3 then ([1, 2, 3], some 3)
  else ([1, 2, 3], none)

/-- Output filename produced by a fresh download:
`f"{safe_title}_{video.youtube_id}.mp4"`. -/
def mkOutputName (safeTitle ytId : List Char) : List Char :=
  safeTitle ++ ['_'] ++ ytId ++ ".mp4".data

/-- Embeds the caching skeleton of `download_video`: if some `.mp4`
filename under the download directory contains the video's `youtube_id`,
return it without downloading; otherwise (when the network download
succeeds, `downloadOk`) write and return the fresh output file.
Result: (returned path, directory contents after the call, whether a
download was performed). -/
def download_video (files : List (List Char)) (ytId safeTitle : List Char)
    (downloadOk : Bool) : Option (List Char) × List (List Char) × Bool :=
  match files.find? (fun f => decide (ytId <:+: f)) with
  | some f => (some f, files, false)
  | none =>
    if downloadOk then
      (some (mkOutputName safeTitle ytId), files ++ [mkOutputName safeTitle ytId], true)
    else
      (none, files, false)

/-- A row of the `compilations` table as `run_auto` creates it. -/
structure CompilationRow where
  topic : String
  filename : String
  videoCount : Nat
deriving DecidableEq, Repr

/-- Persisted ledger state: the `compilations` table (id, row) and the
`compilation_videos` join table (compilation id, video id), plus the
next sequential compilation id. -/
structure LedgerState where
  nextId : Nat
  compilations : List (Nat × CompilationRow)
  compilationVideos : List (Nat × Nat)
deriving DecidableEq, Repr

/-- An open SQLAlchemy session over the ledger: `durable` is what the
database holds, `pending` the session's uncommitted view. -/
structure DbSession where
  durable : LedgerState
  pending : LedgerState
deriving DecidableEq, Repr

/-- Opening a session: the uncommitted view starts at the durable state. -/
def DbSession.openSession (db : LedgerState) : DbSession := ⟨db, db⟩

/-- `session.add(compilation); session.flush()`: the row is written to
the pending view and the sequential id is assigned, nothing durable. -/
def DbSession.addAndFlush (s : DbSession) (row : CompilationRow) : DbSession × Nat :=
  (⟨s.durable,
    ⟨s.pending.nextId + 1,
     s.pending.compilations ++ [(s.pending.nextId, row)],
     s.pending.compilationVideos⟩⟩,
   s.pending.nextId)

/-- `session.execute(compilation_videos.insert().values(...))`: one join
row added to the pending view. -/
def DbSession.insertUsage (s : DbSession) (cid vid : Nat) : DbSession :=
  ⟨s.durable,
   ⟨s.pending.nextId, s.pending.compilations,
    s.pending.compilationVideos ++ [(cid, vid)]⟩⟩

/-- `session.commit()`: the pending view becomes durable. -/
def DbSession.commitTx (s : DbSession) : DbSession := ⟨s.pending, s.pending⟩

/-- `session.close()` without a commit discards the pending view; the
database keeps only the durable state. -/
def DbSession.closeSession (s : DbSession) : LedgerState := s.durable

/-- The `for video_id in video_files.keys(): session.execute(...)` loop.
`insertFails v = true` models the insert for video `v` raising; the
boolean result records whether an exception escaped the loop. -/
def insertUsageRows (s : DbSession) (cid : Nat) (videoIds : List Nat)
    (insertFails : Nat → Bool) : DbSession × Bool :=
  match videoIds with
  | [] => (s, false)
  | v :: rest =>
    if insertFails v then (s, true)
    else insertUsageRows (s.insertUsage cid v) cid rest insertFails

/-- Embeds the record-compilation block of `run_auto` (the
`try: add/flush/insert*/commit except: warn finally: close` block).
Returns the durable ledger state after `session.close()` and whether the
warning branch ran.  `commitFails` models `session.commit()` itself
raising. -/
def run_auto_record (db : LedgerState) (row : CompilationRow) (videoIds : List Nat)
    (insertFails : Nat → Bool) (commitFails : Bool) : LedgerState × Bool :=
  let flushed := (DbSession.openSession db).addAndFlush row
  let inserted := insertUsageRows flushed.1 flushed.2 videoIds insertFails
  if inserted.2 then (inserted.1.closeSession, true)
  else if commitFails then (inserted.1.closeSession, true)
  else (inserted.1.commitTx.closeSession, false)

/-- The tail of `run_auto` after a successful compilation: the ledger
commit is attempted, and the compiled output file is returned whether or
not the commit succeeded. -/
def run_auto_finish (outputFile : String) (db : LedgerState) (row : CompilationRow)
    (videoIds : List Nat) (insertFails : Nat → Bool) (commitFails : Bool) :
    String × LedgerState × Bool :=
  let r := run_auto_record db row videoIds insertFails commitFails
  (outputFile, r.1, r.2)

/-- The durable ledger state after a fully successful commit of `row`
with one usage join row per member video id. -/
def committedLedger (db : LedgerState) (row : CompilationRow) (videoIds : List Nat) :
    LedgerState :=
  ⟨db.nextId + 1,
   db.compilations ++ [(db.nextId, row)],
   db.compilationVideos ++ videoIds.map (fun v => (db.nextId, v))⟩

/-- The `TOPIC_DISPLAY_NAMES` table of `src/youtube_upload.py`. -/
def TOPIC_DISPLAY_NAMES : List (String × String) :=
  [("among_us", "AMONG US"),
   ("try_not_to_laugh", "TRY NOT TO LAUGH"),
   ("the_price_is_right", "THE PRICE IS RIGHT"),
   ("mukbang", "MUKBANG"),
   ("five_second_challenge", "5 SECOND CHALLENGE"),
   ("hide_and_seek", "HIDE AND SEEK"),
   ("mafia", "MAFIA"),
   ("guess_the_link", "GUESS THE LINK"),
   ("guess_the_lyric", "GUESS THE LYRIC"),
   ("guessmoji", "GUESSMOJI"),
   ("sidemen_sunday", "SIDEMEN SUNDAY"),
   ("holiday", "HOLIDAY"),
   ("road_trip", "ROAD TRIP"),
   ("cooking", "COOKING CHALLENGE"),
   ("dating", "DATING"),
   ("football", "FOOTBALL"),
   ("quiz", "QUIZ"),
   ("charity", "CHARITY"),
   ("would_you_rather", "WOULD YOU RATHER"),
   ("fashion", "FASHION"),
   ("ultimate", "ULTIMATE"),
   ("tasting", "TASTING"),
   ("general", "COMPILATION")]

/-- `TOPIC_DISPLAY_NAMES.get(topic, topic.replace('_', ' ').upper())`. -/
def topicDisplay (topic : String) : String :=
  match TOPIC_DISPLAY_NAMES.lookup topic with
  | some d => d
  | none => (topic.map (fun c => if c = '_' then ' ' else c)).map Char.toUpper

/-- Python's `round` on a rational: round half to even (banker's
rounding), which is what `round(float)` does on the exactly-representable
halves. -/
def pythonRound (q : ℚ) : ℤ :=
  let f := ⌊q⌋
  let r := q - (f : ℚ)
  if r < 1 / 2 then f
  else if 1 / 2 < r then f + 1
  else if Even f then f else f + 1

/-- Embeds `format_title`: display name from the table (or the
underscore-to-space uppercase default), hours rounded to the nearest
integer with a floor of 1. -/
def format_title (topic : String) (durationSeconds : ℚ) : String :=
  "SIDEMEN " ++ topicDisplay topic ++ " - " ++
    toString (max 1 (pythonRound (durationSeconds / 3600))) ++ " HOUR SPECIAL"

/-! Concrete catalogue items used in closed statements. -/

/-- Candidate A of the greedy scan-order scenario: 5000 s, fresh. -/
def vidA : Video := ⟨1, some 5000, []⟩

/-- Candidate B of the greedy scan-order scenario: 4000 s, fresh. -/
def vidB : Video := ⟨2, some 4000, []⟩

/-- Candidate C of the greedy scan-order scenario: 3000 s, fresh. -/
def vidC : Video := ⟨3, some 3000, []⟩

/-- A cooling item, most recently used at time 100. -/
def vidX : Video := ⟨4, some 100, [100]⟩

/-- A cooling item, most recently used at time 50 (least recently used). -/
def vidY : Video := ⟨5, some 100, [50]⟩

/-! Helper lemmas. -/

lemma sumEff_nil : sumEff [] = 0 := rfl

lemma sumEff_cons (v : Video) (l : List Video) :
    sumEff (v :: l) = effectiveDuration v.duration + sumEff l := by
  simp [sumEff]

/-- The greedy loop invariant: starting from a running total already
within budget, the total together with everything admitted afterwards
stays within budget. -/
lemma selectGreedy_total_le (candidates : List Video) :
    ∀ maxDur total : Int, total ≤ maxDur →
      total + sumEff (selectGreedy candidates maxDur total) ≤ maxDur := by
  induction candidates with
  | nil =>
    intro maxDur total h
    simpa [selectGreedy, sumEff_nil] using h
  | cons v rest ih =>
    intro maxDur total h
    simp only [selectGreedy]
    by_cases hc : total + effectiveDuration v.duration ≤ maxDur
    · rw [if_pos hc, sumEff_cons]
      have := ih maxDur (total + effectiveDuration v.duration) hc
      linarith
    · rw [if_neg hc]
      exact ih maxDur total h

/-- Claim C1: for every catalogue state, budget, cooldown window and
every outcome of the two internal shuffles, the sum of effective
durations of the returned selection is at most `maxDurationSeconds`. -/
theorem selection_respects_budget (allVideos : List Video)
    (maxDurationSeconds cooldownDate : Int)
    (shuffleFresh shuffleCooling : List Video → List Video)
    (hmax : 0 ≤ maxDurationSeconds) :
    sumEff (select_videos_within_duration allVideos maxDurationSeconds cooldownDate
      shuffleFresh shuffleCooling) ≤ maxDurationSeconds := by
  unfold select_videos_within_duration
  by_cases he : allVideos.isEmpty
  · rw [if_pos he]
    simpa [sumEff_nil] using hmax
  · rw [if_neg he]
    have := selectGreedy_total_le
      (shuffleFresh (freshVideos allVideos cooldownDate) ++
        shuffleCooling (cooldownVideos allVideos cooldownDate))
      maxDurationSeconds 0 hmax
    linarith

/-- Witness for C1: the 8000-second budget scenario at a concrete
catalogue, with the identity shuffles. -/
theorem selection_respects_budget_witness :
    sumEff (select_videos_within_duration [vidA, vidB, vidC] 8000 0 id id) ≤ 8000 :=
  selection_respects_budget [vidA, vidB, vidC] 8000 0 id id (by decide)

/-- Claim C2, counterexample: with scan order `[A(5000), B(4000),
C(3000)]` and budget 8000, the greedy loop does NOT return `[A, B]`
(that selection would total 9000 > 8000). -/
theorem greedy_scan_order_not_AB :
    selectGreedy [vidA, vidB, vidC] 8000 0 ≠ [vidA, vidB] := by decide

/-- Claim C2, amended: in that scan order the loop admits A (5000),
skips B (5000 + 4000 > 8000), then continues scanning and admits C
(5000 + 3000 = 8000): the result is `[A, C]`, first-fit in scan order
with the scan continuing past a skipped candidate. -/
theorem greedy_first_fit_scan_order :
    selectGreedy [vidA, vidB, vidC] 8000 0 = [vidA, vidC] ∧
    select_videos_within_duration [vidA, vidB, vidC] 8000 0 id id = [vidA, vidC] := by
  decide

/-- Claim C6: the effective duration used by the budgeted selector (a
Python-truthiness test on the nullable DB column followed by a
positivity test) agrees with the spec's description: the recorded
duration when known and strictly positive, 3600 seconds otherwise. -/
theorem effectiveDuration_matches_spec :
    ∀ d : Option Int, effectiveDuration d = specEffectiveDuration d := by
  intro d
  cases d with
  | none => rfl
  | some v =>
    simp only [effectiveDuration, specEffectiveDuration]
    by_cases h : 0 < v
    · rw [if_pos ⟨by omega, h⟩, if_pos h]
    · rw [if_neg (fun hc => h hc.2), if_neg h]
      rfl

/-- Claim C7: a topic with zero catalogue items yields the empty
selection, for every budget, cooldown date and shuffle outcome; the
embedded selector is total, so no failure occurs. -/
theorem select_empty_catalogue :
    ∀ (maxDur cooldownDate : Int) (shuffleFresh shuffleCooling : List Video → List Video),
      select_videos_within_duration [] maxDur cooldownDate shuffleFresh shuffleCooling = [] := by
  intro maxDur cooldownDate shuffleFresh shuffleCooling
  rfl

lemma recentUse_true_iff (usages : List Int) (cooldownDate : Int) :
    recentUse usages cooldownDate = true ↔ ∃ t ∈ usages, cooldownDate ≤ t := by
  simp [recentUse]

lemma recentUse_false_iff (usages : List Int) (cooldownDate : Int) :
    recentUse usages cooldownDate = false ↔ ∀ t ∈ usages, t < cooldownDate := by
  simp [recentUse, Int.not_le]

lemma mem_freshVideos_iff (allVideos : List Video) (cooldownDate : Int) (v : Video) :
    v ∈ freshVideos allVideos cooldownDate ↔
      v ∈ allVideos ∧ recentUse v.usages cooldownDate = false := by
  simp [freshVideos, List.mem_filter]

lemma mem_cooldownVideos_iff (allVideos : List Video) (cooldownDate : Int) (v : Video) :
    v ∈ cooldownVideos allVideos cooldownDate ↔
      v ∈ allVideos ∧ recentUse v.usages cooldownDate = true := by
  simp [cooldownVideos, List.mem_filter]

/-- Claim C4: the cooldown boundary is inclusive.  An item of the
catalogue with a usage timestamp exactly at `now − cooldownDays` lands
in the cooling bucket and not in the fresh bucket, and membership of the
fresh bucket is equivalent to having no usage timestamp at or after
`now − cooldownDays`. -/
theorem cooldown_boundary_inclusive (allVideos : List Video) (v : Video)
    (nowTs cooldownDays : Int) (hv : v ∈ allVideos)
    (hts : (nowTs - cooldownDays) ∈ v.usages) :
    v ∈ cooldownVideos allVideos (nowTs - cooldownDays) ∧
    v ∉ freshVideos allVideos (nowTs - cooldownDays) ∧
    (∀ w ∈ allVideos,
      (w ∈ freshVideos allVideos (nowTs - cooldownDays) ↔
        ∀ t ∈ w.usages, t < nowTs - cooldownDays)) := by
  have hcool : recentUse v.usages (nowTs - cooldownDays) = true :=
    (recentUse_true_iff _ _).mpr ⟨nowTs - cooldownDays, hts, le_refl _⟩
  refine ⟨(mem_cooldownVideos_iff _ _ _).mpr ⟨hv, hcool⟩, ?_, ?_⟩
  · intro hmem
    have := ((mem_freshVideos_iff _ _ _).mp hmem).2
    rw [hcool] at this
    cases this
  · intro w hw
    rw [mem_freshVideos_iff, recentUse_false_iff]
    exact ⟨fun h => h.2, fun h => ⟨hw, h⟩⟩

/-- Witness for C4: a concrete item used exactly at the boundary
(timestamp 100 = 100 − 0) is cooling, not fresh. -/
theorem cooldown_boundary_inclusive_witness :
    vidX ∈ cooldownVideos [vidX] (100 - 0) ∧
    vidX ∉ freshVideos [vidX] (100 - 0) ∧
    (∀ w ∈ [vidX],
      (w ∈ freshVideos [vidX] (100 - 0) ↔ ∀ t ∈ w.usages, t < 100 - 0)) :=
  cooldown_boundary_inclusive [vidX] vidX 100 0 (by decide) (by decide)

/-- The amended top-N contract: the result is truncated to `count`
items, and when fewer than `count` fresh items exist it is the fresh
items followed by cooling items taken in catalogue order (most recent
upload first). -/
def selectTopNSpec (allVideos : List Video) (count : Nat) (cooldownDate : Int) : Prop :=
  (select_videos allVideos count cooldownDate).length ≤ count ∧
  select_videos allVideos count cooldownDate =
    (if (freshVideos allVideos cooldownDate).length < count then
      freshVideos allVideos cooldownDate ++
        (cooldownVideos allVideos cooldownDate).take
          (count - (freshVideos allVideos cooldownDate).length)
     else (freshVideos allVideos cooldownDate).take count)

/-- Claim C5, counterexample: both catalogue items are cooling, `vidY`
is the least recently used (usage 50 vs 100), yet with `count = 1` the
padding takes `vidX` — the first item in catalogue order — not the
least-recently-used `vidY`. -/
theorem select_videos_padding_not_lru :
    recentUse vidX.usages 0 = true ∧ recentUse vidY.usages 0 = true ∧
    vidX.usages = [100] ∧ vidY.usages = [50] ∧
    freshVideos [vidX, vidY] 0 = [] ∧
    select_videos [vidX, vidY] 1 0 = [vidX] ∧
    select_videos [vidX, vidY] 1 0 ≠ [vidY] := by decide

/-- Claim C5, amended: for every catalogue, count and cooldown window,
the top-N result has at most `count` items irrespective of duration;
when fewer than `count` fresh items exist the result is the fresh items
followed by cooling padding taken in catalogue order (most recent
upload first), otherwise the fresh items truncated to `count`. -/
theorem select_videos_topn (allVideos : List Video) (count : Nat)
    (cooldownDate : Int) (hne : allVideos ≠ []) :
    selectTopNSpec allVideos count cooldownDate := by
  have he : allVideos.isEmpty = false := by
    cases allVideos with
    | nil => exact absurd rfl hne
    | cons a l => rfl
  unfold selectTopNSpec select_videos
  rw [he]
  simp only [Bool.false_eq_true, if_false]
  by_cases hlt : (freshVideos allVideos cooldownDate).length < count
  · rw [if_pos hlt, if_pos hlt]
    have hlen :
        (freshVideos allVideos cooldownDate ++
          (cooldownVideos allVideos cooldownDate).take
            (count - (freshVideos allVideos cooldownDate).length)).length ≤ count := by
      rw [List.length_append, List.length_take]
      omega
    refine ⟨?_, List.take_of_length_le hlen⟩
    rw [List.take_of_length_le hlen]
    exact hlen
  · rw [if_neg hlt, if_neg hlt]
    constructor
    · rw [List.length_take]
      omega
    · rfl

/-- Witness for C5's amended theorem at a concrete catalogue. -/
theorem select_videos_topn_witness : selectTopNSpec [vidX, vidY] 1 0 :=
  select_videos_topn [vidX, vidY] 1 0 (by decide)

/-- The tier-fallback contract of claim C3, at fixed tier outcomes
`t1, t2, t3`: with Tier 1 failing and Tier 2 succeeding the engine
returns the Tier 2 output having attempted exactly tiers 1 and 2;
a tier outcome fails exactly when the exit code is nonzero, the output
is missing, or the output is at most the 1 000 000-byte threshold; and
in unattended mode each next tier is attempted iff the previous one
failed. -/
def compileTierFallbackSpec (t1 t2 t3 : TierResult) (autoMode confirmTier3 : Bool) : Prop :=
  compile_videos true autoMode confirmTier3 t1 t2 t3 = ([1, 2], some 2) ∧
  3 ∉ (compile_videos true autoMode confirmTier3 t1 t2 t3).1 ∧
  (∀ u : TierResult, tierSuccess u = false ↔
    (u.returncode ≠ 0 ∨ u.outputExists = false ∨ u.outputSize ≤ 1000000)) ∧
  (∀ w1 w2 w3 : TierResult,
    (2 ∈ (compile_videos true true confirmTier3 w1 w2 w3).1 ↔ tierSuccess w1 = false) ∧
    (3 ∈ (compile_videos true true confirmTier3 w1 w2 w3).1 ↔
      (tierSuccess w1 = false ∧ tierSuccess w2 = false)))

lemma tierSuccess_false_iff (u : TierResult) :
    tierSuccess u = false ↔
      (u.returncode ≠ 0 ∨ u.outputExists = false ∨ u.outputSize ≤ 1000000) := by
  rcases u with ⟨rc, ex, sz⟩
  cases ex <;> simp [tierSuccess, not_and_or, not_lt]
  tauto

/-- Claim C3: a tier is deemed failed and the next one attempted iff the
exit code is nonzero, the output is missing, or its size does not exceed
the fixed 1 MB threshold; whenever Tier 1 fails and Tier 2 meets the
success criteria, `compile_videos` returns the Tier 2 output and Tier 3
is never attempted (in automatic and interactive mode alike). -/
theorem compile_videos_tier_fallback (t1 t2 t3 : TierResult)
    (autoMode confirmTier3 : Bool)
    (h1 : tierSuccess t1 = false) (h2 : tierSuccess t2 = true) :
    compileTierFallbackSpec t1 t2 t3 autoMode confirmTier3 := by
  refine ⟨?_, ?_, tierSuccess_false_iff, ?_⟩
  · simp [compile_videos, h1, h2]
  · simp [compile_videos, h1, h2]
  · intro w1 w2 w3
    rcases hb1 : tierSuccess w1 with _ | _ <;>
      rcases hb2 : tierSuccess w2 with _ | _ <;>
      rcases hb3 : tierSuccess w3 with _ | _ <;>
      simp [compile_videos, hb1, hb2, hb3]

/-- A failing Tier 1 outcome: nonzero exit code. -/
def tierFail : TierResult := ⟨1, true, 2000000⟩

/-- A succeeding tier outcome: exit 0, output present and above 1 MB. -/
def tierOk : TierResult := ⟨0, true, 2000000⟩

/-- Witness for C3 at concrete tier outcomes. -/
theorem compile_videos_tier_fallback_witness :
    tierSuccess tierFail = false ∧ tierSuccess tierOk = true ∧
    compileTierFallbackSpec tierFail tierOk tierOk true true :=
  ⟨by decide, by decide,
    compile_videos_tier_fallback tierFail tierOk tierOk true true (by decide) (by decide)⟩

/-- Durable state is untouched by the usage-insert loop, and when no
insert raises, the pending view has gained exactly one join row per
member id. -/
lemma insertUsageRows_state (videoIds : List Nat) :
    ∀ (s : DbSession) (cid : Nat) (insertFails : Nat → Bool),
      (insertUsageRows s cid videoIds insertFails).1.durable = s.durable ∧
      ((insertUsageRows s cid videoIds insertFails).2 = false →
        (insertUsageRows s cid videoIds insertFails).1.pending =
          ⟨s.pending.nextId, s.pending.compilations,
           s.pending.compilationVideos ++ videoIds.map (fun v => (cid, v))⟩) := by
  induction videoIds with
  | nil =>
    intro s cid insertFails
    refine ⟨rfl, fun _ => ?_⟩
    simp only [List.map_nil, List.append_nil]
    rfl
  | cons v rest ih =>
    intro s cid insertFails
    simp only [insertUsageRows]
    by_cases hf : insertFails v = true
    · rw [if_pos hf]
      exact ⟨rfl, fun h => by cases h⟩
    · rw [if_neg hf]
      obtain ⟨hd, hp⟩ := ih (s.insertUsage cid v) cid insertFails
      refine ⟨hd, fun h => ?_⟩
      rw [hp h]
      simp [DbSession.insertUsage]

/-- Claim C8: the run-ledger commit of `run_auto` is atomic and
non-fatal.  For every prior ledger state, member list and failure
pattern, either nothing is persisted and the warning branch ran, or the
compilation record together with all its usage join rows is persisted
and no warning was issued; in both cases `run_auto` still returns the
compiled output file. -/
theorem run_auto_ledger_atomic (db : LedgerState) (row : CompilationRow)
    (videoIds : List Nat) (insertFails : Nat → Bool) (commitFails : Bool)
    (outputFile : String) :
    (run_auto_finish outputFile db row videoIds insertFails commitFails).1 = outputFile ∧
    (((run_auto_record db row videoIds insertFails commitFails).1 = db ∧
      (run_auto_record db row videoIds insertFails commitFails).2 = true) ∨
     ((run_auto_record db row videoIds insertFails commitFails).1 =
        committedLedger db row videoIds ∧
      (run_auto_record db row videoIds insertFails commitFails).2 = false)) := by
  refine ⟨rfl, ?_⟩
  have hfl :
      (DbSession.openSession db).addAndFlush row =
        (⟨db, ⟨db.nextId + 1, db.compilations ++ [(db.nextId, row)],
          db.compilationVideos⟩⟩, db.nextId) := rfl
  obtain ⟨hd, hp⟩ := insertUsageRows_state videoIds
    ⟨db, ⟨db.nextId + 1, db.compilations ++ [(db.nextId, row)], db.compilationVideos⟩⟩
    db.nextId insertFails
  simp only [run_auto_record, hfl]
  by_cases hraise :
      (insertUsageRows
        ⟨db, ⟨db.nextId + 1, db.compilations ++ [(db.nextId, row)], db.compilationVideos⟩⟩
        db.nextId videoIds insertFails).2 = true
  · left
    rw [if_pos hraise]
    exact ⟨hd, rfl⟩
  · rw [Bool.not_eq_true] at hraise
    rw [hraise, if_neg Bool.false_ne_true]
    by_cases hc : commitFails = true
    · left
      rw [if_pos hc]
      exact ⟨hd, rfl⟩
    · right
      rw [Bool.not_eq_true] at hc
      rw [hc, if_neg Bool.false_ne_true]
      refine ⟨?_, rfl⟩
      show (insertUsageRows _ _ videoIds insertFails).1.pending = committedLedger db row videoIds
      rw [hp hraise]
      rfl

/-- The external id is a substring of the freshly downloaded file's name
(`{safe_title}_{youtube_id}.mp4`). -/
lemma ytId_infix_mkOutputName (safeTitle ytId : List Char) :
    ytId <:+: mkOutputName safeTitle ytId :=
  ⟨safeTitle ++ ['_'], ".mp4".data, by simp [mkOutputName]⟩

/-- The idempotent-acquisition contract of claim C9: (a) when some file
under the download directory contains the item's external id, the call
performs no download and returns that cached path; (b) a second call
made on the directory contents left by a first successful call returns
the same path as the first call and performs no download. -/
def downloadCacheSpec (files : List (List Char)) (ytId safeTitle : List Char) : Prop :=
  (∀ (downloadOk : Bool) (cached : List Char),
    files.find? (fun f => decide (ytId <:+: f)) = some cached →
      download_video files ytId safeTitle downloadOk = (some cached, files, false) ∧
      cached ∈ files ∧ ytId <:+: cached) ∧
  (∀ downloadOk : Bool,
    (download_video (download_video files ytId safeTitle true).2.1
        ytId safeTitle downloadOk).1 =
      (download_video files ytId safeTitle true).1 ∧
    (download_video (download_video files ytId safeTitle true).2.1
        ytId safeTitle downloadOk).2.2 = false)

/-- Claim C9: acquisition is idempotent via filename caching, for every
directory state, external id and title. -/
theorem download_video_idempotent_cache (files : List (List Char))
    (ytId safeTitle : List Char) : downloadCacheSpec files ytId safeTitle := by
  constructor
  · intro downloadOk cached hfind
    have hp := List.find?_some hfind
    simp only [decide_eq_true_eq] at hp
    refine ⟨?_, List.mem_of_find?_eq_some hfind, hp⟩
    unfold download_video
    rw [hfind]
  · intro downloadOk
    rcases hfind : files.find? (fun f => decide (ytId <:+: f)) with _ | cached
    · have h1 : download_video files ytId safeTitle true =
          (some (mkOutputName safeTitle ytId),
           files ++ [mkOutputName safeTitle ytId], true) := by
        unfold download_video
        rw [hfind]
        rfl
      have h2 : (files ++ [mkOutputName safeTitle ytId]).find?
          (fun f => decide (ytId <:+: f)) = some (mkOutputName safeTitle ytId) := by
        rw [List.find?_append, hfind]
        simp [List.find?, decide_eq_true (ytId_infix_mkOutputName safeTitle ytId)]
      rw [h1]
      constructor
      · show (download_video (files ++ [mkOutputName safeTitle ytId])
            ytId safeTitle downloadOk).1 = some (mkOutputName safeTitle ytId)
        unfold download_video
        rw [h2]
      · show (download_video (files ++ [mkOutputName safeTitle ytId])
            ytId safeTitle downloadOk).2.2 = false
        unfold download_video
        rw [h2]
    · have h1 : download_video files ytId safeTitle true = (some cached, files, false) := by
        unfold download_video
        rw [hfind]
      rw [h1]
      constructor
      · show (download_video files ytId safeTitle downloadOk).1 = some cached
        unfold download_video
        rw [hfind]
      · show (download_video files ytId safeTitle downloadOk).2.2 = false
        unfold download_video
        rw [hfind]

/-- Witness for C9 at a concrete directory and id: evaluates the spec at
the empty directory. -/
theorem download_video_idempotent_cache_witness :
    downloadCacheSpec [] "dQw4w9WgXcQ".data "Title".data :=
  download_video_idempotent_cache [] "dQw4w9WgXcQ".data "Title".data

/-- A rational in `[0, 1/2)` rounds to 0 under Python rounding. -/
lemma pythonRound_zero (q : ℚ) (h0 : 0 ≤ q) (h1 : q < 1 / 2) : pythonRound q = 0 := by
  have hf : ⌊q⌋ = 0 := by
    rw [Int.floor_eq_zero_iff]
    exact Set.mem_Ico.mpr ⟨h0, by linarith⟩
  have hlt : q - ((0 : ℤ) : ℚ) < 1 / 2 := by
    push_cast
    linarith
  simp only [pythonRound, hf]
  rw [if_pos hlt]

/-- Claim C10: `format_title` produces
`SIDEMEN {TOPIC DISPLAY} - {h} HOUR SPECIAL` with
`h = max(1, round(duration_seconds / 3600))`; in particular any
compilation shorter than 1800 seconds — zero included — is titled a
`1 HOUR SPECIAL`. -/
theorem format_title_spec (topic : String) (durationSeconds : ℚ)
    (h0 : 0 ≤ durationSeconds) :
    format_title topic durationSeconds =
      "SIDEMEN " ++ topicDisplay topic ++ " - " ++
        toString (max 1 (pythonRound (durationSeconds / 3600))) ++ " HOUR SPECIAL" ∧
    (durationSeconds < 1800 →
      format_title topic durationSeconds =
        "SIDEMEN " ++ topicDisplay topic ++ " - 1 HOUR SPECIAL") := by
  refine ⟨rfl, fun h1800 => ?_⟩
  have hz : pythonRound (durationSeconds / 3600) = 0 :=
    pythonRound_zero _ (div_nonneg h0 (by norm_num)) (by linarith)
  unfold format_title
  rw [hz]
  have hmax : max 1 (0 : ℤ) = 1 := rfl
  rw [hmax]
  have hone : toString (1 : ℤ) = "1" := rfl
  rw [hone]
  simp only [String.append_assoc]
  rfl

/-- Witness for C10: a 900-second (15-minute) compilation is titled a
`1 HOUR SPECIAL`. -/
theorem format_title_spec_witness :
    (0 : ℚ) ≤ 900 ∧
    (format_title "mafia" 900 =
      "SIDEMEN " ++ topicDisplay "mafia" ++ " - " ++
        toString (max 1 (pythonRound (900 / 3600))) ++ " HOUR SPECIAL" ∧
    ((900 : ℚ) < 1800 →
      format_title "mafia" 900 =
        "SIDEMEN " ++ topicDisplay "mafia" ++ " - 1 HOUR SPECIAL")) :=
  ⟨by norm_num, format_title_spec "mafia" 900 (by norm_num)⟩
